import Mathlib

/-!
Formal model of the effect library core (src/effect/__init__.py and
src/effect/dispatcher.py): the Effect value and its callback chain, the
box protocol, dispatcher lookup and composition, guarded invocation, the
trampoline driver, and synchronous extraction via sync_perform.

Python values flowing through a callback chain are modelled by the deep
type Val; handler functions are modelled by the deep type Cb together
with the evaluator runCb, which threads the mutable collector lists of
sync_perform and an observation log through every invocation.  Captured
exceptions are the triple ExcInfo, mirroring sys.exc_info().  Positional
call arity is modelled explicitly (PyCallable, pyCall), because the
source calls dispatchers and performers with argument counts that do not
match their parameter lists.
-/

namespace EffectCore

/-- Kinds of Python exceptions arising in the modelled code paths: TypeError
from a positional-arity mismatch, AttributeError from a missing attribute,
NoEffectHandlerError from dispatcher.py, NotSynchronousError from
sync_perform, and application-defined exception classes. -/
inductive ExcKind : Type where
  | typeError
  | attributeError
  | noEffectHandler
  | notSynchronous
  | appExc : Nat → ExcKind
  deriving DecidableEq

/-- A captured exception, as produced by sys.exc_info(): class identity,
payload, and a traceback handle. -/
structure ExcInfo : Type where
  kind : ExcKind
  payload : Nat
  tb : Nat
  deriving DecidableEq

/-- Traceback handle attached at the point where an exception is captured. -/
def tbRaise : Nat := 1

/-- TypeError raised by Python when a call passes a number of positional
arguments different from the number of declared parameters. -/
def typeErrorArity : ExcInfo := ⟨ExcKind.typeError, 0, 0⟩

/-- The NoEffectHandlerError raised by dispatcher.py when no performer is
found for the runtime type of an intent. -/
def noEffectHandlerExc : ExcInfo := ⟨ExcKind.noEffectHandler, 0, 0⟩

/-- The NotSynchronousError raised by sync_perform when no result was
recorded. -/
def notSynchronousExc : ExcInfo := ⟨ExcKind.notSynchronous, 0, 0⟩

/-- AttributeError from reading a missing attribute of an intent. -/
def attributeErrorExc : ExcInfo := ⟨ExcKind.attributeError, 0, 0⟩

/-- Runtime type tags of intent objects, the keys of a TypeDispatcher
mapping: ConstantIntent, ErrorIntent, FuncIntent, and plain application
classes (each distinct Nat is a distinct application class). -/
inductive IntentTy : Type where
  | constantT
  | errorT
  | funcT
  | popoT : Nat → IntentTy
  deriving DecidableEq

mutual

/-- A Python value reaching the callback chain: None, an opaque object, a
captured exception triple, an object of runtime class exactly Effect, or an
object of a strict subclass of Effect. -/
inductive Val : Type where
  | none : Val
  | obj : Nat → Val
  | excInfo : ExcInfo → Val
  | eff : Effect → Val
  | effSub : Effect → Val

/-- The Effect class of src/effect/__init__.py: an intent together with the
ordered callback chain, a list of optional (success, error) handler pairs. -/
inductive Effect : Type where
  | mk : IntentV → List (Option Cb × Option Cb) → Effect

/-- Intent objects: ConstantIntent with its result, ErrorIntent with the
exception class and payload it raises, FuncIntent with the outcome of its
wrapped nullary function, and plain application intents with no performer
in the base mapping. -/
inductive IntentV : Type where
  | constant : Val → IntentV
  | errorI : ExcKind → Nat → IntentV
  | funcI : FnRes → IntentV
  | popo : Nat → IntentV

/-- Outcome of the nullary function wrapped by a FuncIntent: return a value
or raise. -/
inductive FnRes : Type where
  | ok : Val → FnRes
  | raises : ExcKind → Nat → FnRes

/-- Handler functions attachable by Effect.on, evaluated by runCb: return a
fixed value, return the argument, raise, log the argument and return it,
or the two collector closures installed by sync_perform. -/
inductive Cb : Type where
  | constFn : Val → Cb
  | ident : Cb
  | raiseFn : ExcKind → Nat → Cb
  | logFn : Cb
  | collectS : Cb
  | collectE : Cb

end

/-- Field access self.intent. -/
def Effect.intent : Effect → IntentV
  | .mk i _ => i

/-- Field access self.callbacks. -/
def Effect.callbacks : Effect → List (Option Cb × Option Cb)
  | .mk _ cs => cs

/-- Effect.on from the source: return a new Effect built from the same
intent and the old chain with the new (success, error) pair appended; the
receiver is not mutated (list concatenation builds a fresh list). -/
def Effect.on (e : Effect) (success : Option Cb) (error : Option Cb) : Effect :=
  .mk e.intent (e.callbacks ++ [(success, error)])

/-- The check type(value) is Effect of _run_callbacks: true only when the
runtime class is exactly Effect, false for strict subclasses and for every
other value. -/
def Val.isExactEffect : Val → Bool
  | .eff _ => true
  | _ => false

/-- Reading value.intent when flattening; meaningful only on Effect values. -/
def Val.effIntent : Val → IntentV
  | .eff e => e.intent
  | .effSub e => e.intent
  | _ => .popo 0

/-- Reading value.callbacks when flattening; meaningful only on Effect
values. -/
def Val.effCallbacks : Val → List (Option Cb × Option Cb)
  | .eff e => e.callbacks
  | .effSub e => e.callbacks
  | _ => []

/-- The runtime type tag type(intent) used for dispatcher lookup. -/
def IntentV.tyTag : IntentV → IntentTy
  | .constant _ => .constantT
  | .errorI _ _ => .errorT
  | .funcI _ => .funcT
  | .popo n => .popoT n

/-- Mutable state threaded through a run: the successes and errors lists
closed over by the collector callbacks of sync_perform, and a log used to
observe which arguments reached which handlers. -/
structure RState : Type where
  successes : List Val
  errors : List Val
  log : List Val

/-- Evaluate a handler function on an argument: either return a value or
raise, possibly updating the threaded state. -/
def runCb : Cb → Val → RState → Except ExcInfo Val × RState
  | .constFn v, _, s => (.ok v, s)
  | .ident, x, s => (.ok x, s)
  | .raiseFn k p, _, s => (.error ⟨k, p, tbRaise⟩, s)
  | .logFn, x, s => (.ok x, ⟨s.successes, s.errors, s.log ++ [x]⟩)
  | .collectS, x, s => (.ok Val.none, ⟨s.successes ++ [x], s.errors, s.log⟩)
  | .collectE, x, s => (.ok Val.none, ⟨s.successes, s.errors ++ [x], s.log⟩)

/-- The guard function of the source: run f; on normal return produce
(False, return value); on any raised exception produce (True, exc_info).
No exception escapes: the result is always a normal pair. -/
def guard (f : Val → RState → Except ExcInfo Val × RState) (v : Val) (s : RState) :
    (Bool × Val) × RState :=
  match f v s with
  | (.ok r, s2) => ((false, r), s2)
  | (.error e, s2) => ((true, .excInfo e), s2)

/-- Observable behaviour of one dispatcher-and-performer call on the box
handed to it by _perform: it raises before settling the box, or it settles
the box exactly once with (is_error, value) as the performer contract
requires, or it returns without settling (asynchronous suspension). -/
inductive DOut : Type where
  | raises : ExcInfo → DOut
  | settles : Bool → Val → DOut
  | silent : DOut

/-- Modelled from the spec: the pending bounce of the trampoline of the
missing continuation.py.  A bounce records a step function with its
arguments; the two step functions of the source are _perform, carrying the
effect to dispatch, and _run_callbacks, carrying the remaining chain and
the current (is_error, value) resolution. -/
inductive TState : Type where
  | performing : Effect → TState
  | running : List (Option Cb × Option Cb) → Bool → Val → TState

/-- Outcome of driving the trampoline: fuel ran out (model artefact), an
exception propagated out of a bounce, the queue emptied with the box never
settled, or the chain was exhausted delivering a final resolution. -/
inductive RunOut : Type where
  | outOfFuel : RState → RunOut
  | raised : ExcInfo → RState → RunOut
  | suspended : RState → RunOut
  | finished : Bool → Val → RState → RunOut

/-- Modelled from the spec: the driving loop of the trampoline of the
missing continuation.py, which pops one bounce at a time and runs it; a
bounce that schedules another bounce is continued iteratively.  The bodies
of the two step functions are translated from the source: a performing
bounce is _perform, which invokes the dispatcher on the intent with a box
whose continuation is _run_callbacks on the callbacks of the effect (an
exception from the dispatcher propagates; a synchronous settlement feeds
the chain; no settlement leaves the queue empty); a running bounce is
_run_callbacks, which first flattens a value of runtime type exactly
Effect by performing it with its own chain extended by the remaining
chain, then returns when the chain is empty, and otherwise selects
chain[0][is_error], guards its invocation when present, and continues with
the rest of the chain. -/
def runT (D : IntentV → DOut) (recurse : Bool) : Nat → TState → RState → RunOut
  | 0, _, s => .outOfFuel s
  | fuel + 1, .performing e, s =>
      match D e.intent with
      | .raises ex => .raised ex s
      | .silent => .suspended s
      | .settles iserr v => runT D recurse fuel (.running e.callbacks iserr v) s
  | fuel + 1, .running ch iserr v, s =>
      if recurse && v.isExactEffect then
        runT D recurse fuel (.performing (.mk v.effIntent (v.effCallbacks ++ ch))) s
      else
        match ch with
        | [] => .finished iserr v s
        | (sc, ec) :: rest =>
            match (if iserr then ec else sc) with
            | Option.none => runT D recurse fuel (.running rest iserr v) s
            | Option.some cb =>
                match guard (runCb cb) v s with
                | ((iserr2, v2), s2) => runT D recurse fuel (.running rest iserr2 v2) s2

/-- The perform function: hand the initial _perform bounce for the effect
to the trampoline.  Its return value is None; results are observable only
through the callbacks. -/
def perform (D : IntentV → DOut) (recurse : Bool) (fuel : Nat) (e : Effect) (s : RState) :
    RunOut :=
  runT D recurse fuel (.performing e) s

/-- The run performed inside sync_perform: the effect with the success and
error collector pair appended by Effect.on, against fresh empty collector
lists. -/
def performCollected (D : IntentV → DOut) (recurse : Bool) (fuel : Nat) (e : Effect) : RunOut :=
  perform D recurse fuel (e.on (some .collectS) (some .collectE)) ⟨[], [], []⟩

/-- Result of sync_perform: a returned value, a raised exception, or the
fuel artefact of the model. -/
inductive SyncOut : Type where
  | value : Val → SyncOut
  | raisedE : ExcInfo → SyncOut
  | outOfFuel : SyncOut

/-- six.reraise applied to the recorded error: re-raise a captured triple
with its original class, payload and traceback; re-raising a value that is
not an exc_info triple is itself a TypeError. -/
def reraiseVal : Val → SyncOut
  | .excInfo e => .raisedE e
  | _ => .raisedE typeErrorArity

/-- The tail of sync_perform: if the successes list is non-empty return its
first element, else if the errors list is non-empty re-raise its first
element, else raise NotSynchronousError. -/
def afterPerform (s : RState) : SyncOut :=
  match s.successes with
  | x :: _ => .value x
  | [] =>
      match s.errors with
      | v :: _ => reraiseVal v
      | [] => .raisedE notSynchronousExc

/-- sync_perform from the source: attach the collector pair, perform, then
inspect the collector lists; an exception propagating out of perform
propagates to the caller. -/
def sync_perform (D : IntentV → DOut) (recurse : Bool) (fuel : Nat) (e : Effect) : SyncOut :=
  match performCollected D recurse fuel e with
  | .outOfFuel _ => .outOfFuel
  | .raised ex _ => .raisedE ex
  | .suspended s => afterPerform s
  | .finished _ _ s => afterPerform s

/-- A Python callable as seen from a call site: its number of declared
positional parameters, and the behaviour of its body on the intent it
closes over or receives.  The box argument is left implicit; the effect of
the body on the box is the DOut it returns. -/
structure PyCallable : Type where
  params : Nat
  body : IntentV → DOut

/-- A positional call passing nargs arguments: Python raises TypeError
before entering the body when nargs differs from the declared parameter
count. -/
def pyCall (c : PyCallable) (nargs : Nat) (i : IntentV) : DOut :=
  if nargs = c.params then c.body i else .raises typeErrorArity

/-- Body of perform_constant: return intent.result. -/
def perform_constant_f : IntentV → Except ExcInfo Val
  | .constant v => .ok v
  | _ => .error attributeErrorExc

/-- Body of perform_error: raise intent.exception. -/
def perform_error_f : IntentV → Except ExcInfo Val
  | .errorI k p => .error ⟨k, p, tbRaise⟩
  | _ => .error attributeErrorExc

/-- Body of perform_func: return intent.func(). -/
def perform_func_f : IntentV → Except ExcInfo Val
  | .funcI (.ok v) => .ok v
  | .funcI (.raises k p) => .error ⟨k, p, tbRaise⟩
  | _ => .error attributeErrorExc

/-- sync_performer from the source: wrap f into inner(dispatcher, intent,
box) - three positional parameters - whose body tries
box.succeed(f(dispatcher, intent)) and on any exception calls
box.fail(sys.exc_info()). -/
def sync_performer (f : IntentV → Except ExcInfo Val) : PyCallable :=
  ⟨3, fun i =>
    match f i with
    | .ok v => .settles false v
    | .error e => .settles true (.excInfo e)⟩

/-- Dictionary lookup in a TypeDispatcher mapping keyed by intent type. -/
def lookupPerformer : List (IntentTy × PyCallable) → IntentTy → Option PyCallable
  | [], _ => Option.none
  | (t, c) :: rest, t2 => if t = t2 then some c else lookupPerformer rest t2

/-- TypeDispatcher.__call__(self, intent, box) as a Python callable: two
positional parameters besides self.  The body looks up type(intent) in the
mapping, raises NoEffectHandlerError when absent, and otherwise calls the
performer with the two arguments (intent, box). -/
def typeDispatcherCallable (mapping : List (IntentTy × PyCallable)) : PyCallable :=
  ⟨2, fun i =>
    match lookupPerformer mapping i.tyTag with
    | Option.none => .raises noEffectHandlerExc
    | Option.some c => pyCall c 2 i⟩

/-- base_dispatcher from the source: a TypeDispatcher mapping ConstantIntent,
ErrorIntent and FuncIntent to their sync_performer-wrapped performers. -/
def base_dispatcher : List (IntentTy × PyCallable) :=
  [(.constantT, sync_performer perform_constant_f),
   (.errorT, sync_performer perform_error_f),
   (.funcT, sync_performer perform_func_f)]

/-- The dispatcher exactly as _perform invokes it on base_dispatcher:
dispatcher(dispatcher, effect.intent, box), a call with three positional
arguments against the two-parameter TypeDispatcher.__call__. -/
def actualBaseDispatch : IntentV → DOut :=
  fun i => pyCall (typeDispatcherCallable base_dispatcher) 3 i

/-- The box-settling semantics of the base_dispatcher performers reached
when the dispatcher and each performer are invoked with matching arity:
the body of TypeDispatcher.__call__ with each mapping entry entered at its
body.  The composition actually written in _perform never reaches these
bodies (see the arity analysis); this definition gives the intended
synchronous resolutions used to exercise the chain machinery. -/
def intendedBaseDispatch : IntentV → DOut :=
  fun i =>
    match lookupPerformer base_dispatcher i.tyTag with
    | Option.none => .raises noEffectHandlerExc
    | Option.some c => c.body i

/-- ComposedDispatcher.__call__ from dispatcher.py: try each sub-dispatcher
on the intent in order; a raised NoEffectHandlerError falls through to the
next; any other outcome - a returned value or a different exception - is
the outcome of the composite; when the sequence is exhausted the composite
raises NoEffectHandlerError itself. -/
def ComposedDispatcher.call {α β : Type} (ds : List (α → Except ExcInfo β)) (i : α) :
    Except ExcInfo β :=
  match ds with
  | [] => .error noEffectHandlerExc
  | d :: rest =>
      match d i with
      | .ok r => .ok r
      | .error e =>
          match e.kind with
          | .noEffectHandler => ComposedDispatcher.call rest i
          | _ => .error e

/-- Whether a sub-dispatcher outcome is a raised NoEffectHandlerError, the
class caught by the except clause of ComposedDispatcher. -/
def isNoHandlerOutcome {β : Type} : Except ExcInfo β → Bool
  | .error e =>
      match e.kind with
      | .noEffectHandler => true
      | _ => false
  | .ok _ => false

/-- The Box class of the source: it stores the continuation it was
constructed with, and nothing else - in particular no already-settled
flag. -/
structure PBox (α σ : Type) : Type where
  cont : Bool × α → σ → σ

/-- Box.succeed: invoke the stored continuation on (False, result). -/
def PBox.succeed (b : PBox α σ) (r : α) : σ → σ := b.cont (false, r)

/-- Box.fail: invoke the stored continuation on (True, error info). -/
def PBox.fail (b : PBox α σ) (e : α) : σ → σ := b.cont (true, e)

/-- A box whose continuation records every delivery it receives, in order. -/
def logPBox : PBox Nat (List (Bool × Nat)) := ⟨fun r s => s ++ [r]⟩

/-- Apply a sequence of settlements to a box, each through Box.fail or
Box.succeed according to its tag. -/
def settleAll (b : PBox α σ) (ops : List (Bool × α)) (s : σ) : σ :=
  ops.foldl (fun acc op => if op.1 then PBox.fail b op.2 acc else PBox.succeed b op.2 acc) s

/-- Modelled from the spec: one step of chain application as the spec words
it - select the error handler if is_error and the success handler
otherwise; an absent handler is a no-op passing the resolution through
unchanged; a present handler is invoked under guard. -/
def specApplyPair (p : Option Cb × Option Cb) (r : (Bool × Val) × RState) :
    (Bool × Val) × RState :=
  match (if r.1.1 then p.2 else p.1) with
  | Option.none => r
  | Option.some cb => guard (runCb cb) r.1.2 r.2

/-- Modelled from the spec: chain application as a left fold over the pairs
in attachment order. -/
def specRunChain (ch : List (Option Cb × Option Cb)) (r : (Bool × Val) × RState) :
    (Bool × Val) × RState :=
  ch.foldl (fun acc p => specApplyPair p acc) r

/-- A sequence of Effect.on attachments applied in order. -/
def onAll (e : Effect) (ps : List (Option Cb × Option Cb)) : Effect :=
  ps.foldl (fun acc p => acc.on p.1 p.2) e

/-- Nesting of ConstantIntent effects: level k + 1 is an Effect with no
callbacks whose ConstantIntent result is the level k value. -/
def nestedConstVal : Nat → Val → Val
  | 0, v => v
  | k + 1, v => .eff (.mk (.constant (nestedConstVal k v)) [])

/-- Helper: a running bounce on an empty chain with a value that is not of
runtime type exactly Effect delivers the final resolution. -/
theorem runT_running_nil (D : IntentV → DOut) (n : Nat) (iserr : Bool) (v : Val) (s : RState)
    (h0 : v.isExactEffect = false) :
    runT D true (n + 1) (.running [] iserr v) s = .finished iserr v s := by
  cases v <;> first | rfl | simp [Val.isExactEffect] at h0

/-- Helper: a running bounce on a non-empty chain with a value that is not
of runtime type exactly Effect processes exactly the head pair, by the
selection and guarding of specApplyPair, and continues with the tail. -/
theorem runT_running_step (D : IntentV → DOut) (n : Nat) (sc ec : Option Cb)
    (rest : List (Option Cb × Option Cb)) (iserr : Bool) (v : Val) (s : RState)
    (h0 : v.isExactEffect = false) :
    runT D true (n + 1) (.running ((sc, ec) :: rest) iserr v) s
      = runT D true n (.running rest (specApplyPair (sc, ec) ((iserr, v), s)).1.1
          (specApplyPair (sc, ec) ((iserr, v), s)).1.2) (specApplyPair (sc, ec) ((iserr, v), s)).2 := by
  cases v <;>
    first
      | (cases iserr <;> first | (cases sc <;> rfl) | (cases ec <;> rfl))
      | simp [Val.isExactEffect] at h0

/-- Helper: a tower of k nested ConstantIntent effects carrying the
collector pair resolves, against the intended base dispatcher semantics,
to the innermost value recorded by the success collector. -/
theorem c2b_aux : ∀ (k : Nat) (v : Val), v.isExactEffect = false → ∀ (s : RState),
    runT intendedBaseDispatch true (2*k + 3)
      (.performing (.mk (.constant (nestedConstVal k v)) [(some .collectS, some .collectE)])) s
      = .finished false Val.none ⟨s.successes ++ [v], s.errors, s.log⟩ := by
  intro k
  induction k with
  | zero =>
      intro v h s
      cases v <;> first | rfl | simp [Val.isExactEffect] at h
  | succ k ih =>
      intro v h s
      have step : runT intendedBaseDispatch true (2*(k+1) + 3)
          (.performing (.mk (.constant (nestedConstVal (k+1) v)) [(some .collectS, some .collectE)])) s
        = runT intendedBaseDispatch true (2*k + 3)
          (.performing (.mk (.constant (nestedConstVal k v)) [(some .collectS, some .collectE)])) s := rfl
      rw [step]
      exact ih v h s

/-- C1: the claim states that sync_perform(base_dispatcher,
Effect(ConstantIntent(v))) returns v, with the performer reached through
TypeDispatcher and the sync_performer wrapper.  The code violates this:
_perform invokes the dispatcher as dispatcher(dispatcher, intent, box),
three positional arguments against the two declared parameters of
TypeDispatcher.__call__, so every such call raises TypeError before any
lookup; and even a correctly-arity call of __call__ would invoke the
performer with two arguments against the three parameters of the
sync_performer wrapper, raising TypeError again.  The performer body
itself would deliver v, which is what the claim and the test suite
expect. -/
theorem c1_constant_intent_code_eval (v : Val) (fuel : Nat) :
    sync_perform actualBaseDispatch true (fuel + 1) (.mk (.constant v) []) = .raisedE typeErrorArity
    ∧ pyCall (typeDispatcherCallable base_dispatcher) 3 (.constant v) = .raises typeErrorArity
    ∧ pyCall (sync_performer perform_constant_f) 2 (.constant v) = .raises typeErrorArity
    ∧ (sync_performer perform_constant_f).body (.constant v) = .settles false v :=
  ⟨rfl, rfl, rfl, rfl⟩

/-- C2: when a resolution value has runtime type exactly Effect and
recursion is enabled, the remaining chain of the current effect is
appended after the callbacks of the inner Effect and the inner Effect is
performed from scratch against the same dispatcher; consequently a tower
of nested constant effects with no intervening handlers resolves to
exactly the innermost value, and when an inner effect fails the outer
error handler receives the inner captured error rather than a separate
failure. -/
theorem c2_effect_flattening :
    (∀ (D : IntentV → DOut) (fuel : Nat) (ch : List (Option Cb × Option Cb)) (iserr : Bool)
        (E : Effect) (s : RState),
        runT D true (fuel + 1) (.running ch iserr (.eff E)) s
          = runT D true fuel (.performing (.mk E.intent (E.callbacks ++ ch))) s)
    ∧ (∀ (k : Nat) (v : Val), v.isExactEffect = false →
        sync_perform intendedBaseDispatch true (2*k + 3)
            (.mk (.constant (nestedConstVal k v)) []) = .value v)
    ∧ (∀ (kk : ExcKind) (p : Nat),
        runT intendedBaseDispatch true 6
            (.performing (.mk (.constant (.eff (.mk (.errorI kk p) [])))
              [(Option.none, some .logFn)])) ⟨[], [], []⟩
          = .finished false (.excInfo ⟨kk, p, tbRaise⟩) ⟨[], [], [.excInfo ⟨kk, p, tbRaise⟩]⟩) := by
  refine ⟨fun D fuel ch iserr E s => rfl, ?_, fun kk p => rfl⟩
  intro k v h
  have ha := c2b_aux k v h ⟨[], [], []⟩
  simp only [sync_perform, performCollected, perform, Effect.on, Effect.intent, Effect.callbacks,
    List.nil_append]
  rw [ha]
  rfl

/-- Witness for C2 at a concrete input: two levels of nesting around an
opaque object resolve to that object. -/
theorem c2_effect_flattening_witness :
    sync_perform intendedBaseDispatch true 7
        (.mk (.constant (nestedConstVal 2 (.obj 5))) []) = .value (.obj 5) :=
  c2_effect_flattening.2.1 2 (.obj 5) rfl

/-- C3: a sequence of Effect.on attachments yields exactly that list of
pairs in attachment order, and the chain evaluator applies the pairs in
that order: at each pair the error handler is selected when is_error and
the success handler otherwise, an absent selected handler passes the
resolution through unchanged, and the code run coincides with the
attachment-order fold specRunChain whenever no intermediate value has
runtime type exactly Effect. -/
theorem c3_chain_attachment_order :
    (∀ (e : Effect) (ps : List (Option Cb × Option Cb)),
        (onAll e ps).intent = e.intent ∧ (onAll e ps).callbacks = e.callbacks ++ ps)
    ∧ (∀ (D : IntentV → DOut) (ch : List (Option Cb × Option Cb)) (iserr : Bool) (v : Val)
        (s : RState),
        (∀ k, k ≤ ch.length →
          ((specRunChain (ch.take k) ((iserr, v), s)).1.2).isExactEffect = false) →
        runT D true (ch.length + 1) (.running ch iserr v) s
          = .finished (specRunChain ch ((iserr, v), s)).1.1 (specRunChain ch ((iserr, v), s)).1.2
              (specRunChain ch ((iserr, v), s)).2) := by
  constructor
  · intro e ps
    induction ps generalizing e with
    | nil => exact ⟨rfl, by simp [onAll]⟩
    | cons p ps ih =>
        have h1 := ih (e.on p.1 p.2)
        refine ⟨h1.1.trans rfl, ?_⟩
        calc (onAll e (p :: ps)).callbacks = (onAll (e.on p.1 p.2) ps).callbacks := rfl
          _ = (e.on p.1 p.2).callbacks ++ ps := h1.2
          _ = (e.callbacks ++ [p]) ++ ps := rfl
          _ = e.callbacks ++ (p :: ps) := by simp
  · intro D ch
    induction ch with
    | nil =>
        intro iserr v s H
        have h0 : v.isExactEffect = false := by simpa [specRunChain] using H 0 (by simp)
        exact runT_running_nil D 0 iserr v s h0
    | cons p rest ih =>
        obtain ⟨sc, ec⟩ := p
        intro iserr v s H
        have h0 : v.isExactEffect = false := by simpa [specRunChain] using H 0 (by simp)
        have H2 : ∀ k, k ≤ rest.length →
            ((specRunChain (rest.take k) (specApplyPair (sc, ec) ((iserr, v), s))).1.2).isExactEffect
              = false := by
          intro k hk
          have hx := H (k+1) (by simpa using Nat.succ_le_succ hk)
          simpa [specRunChain, List.take_succ_cons] using hx
        have hrec := ih (specApplyPair (sc, ec) ((iserr, v), s)).1.1
          (specApplyPair (sc, ec) ((iserr, v), s)).1.2
          (specApplyPair (sc, ec) ((iserr, v), s)).2 H2
        have hstep := runT_running_step D (rest.length + 1) sc ec rest iserr v s h0
        simp only [List.length_cons]
        rw [hstep]
        simp only [specRunChain, List.foldl_cons]
        exact hrec

/-- Witness for C3 at a concrete input: a two-pair chain where the first
pair rewrites the success value and the second pair has no success
handler, so the value passes through unchanged. -/
theorem c3_chain_attachment_order_witness :
    runT intendedBaseDispatch true 3
        (.running [(some (.constFn (.obj 1)), Option.none), (Option.none, some .ident)]
          false (.obj 0)) ⟨[], [], []⟩
      = .finished false (.obj 1) ⟨[], [], []⟩ := by
  have h := c3_chain_attachment_order.2 intendedBaseDispatch
      [(some (.constFn (.obj 1)), Option.none), (Option.none, some .ident)] false (.obj 0)
      ⟨[], [], []⟩ (by
        intro k hk
        simp only [List.length_cons, List.length_nil] at hk
        interval_cases k <;> rfl)
  exact h.trans rfl

/-- C4: sync_perform behaves as a trichotomy over the collector lists that
its installed handlers recorded - a recorded success is returned, else a
recorded failure is re-raised as exactly the captured triple with its
original class, payload and traceback, else NotSynchronousError is
raised; an exception propagating out of perform itself propagates
instead; and an effect failing with a given error and no user handler
re-raises exactly that error. -/
theorem c4_sync_perform_trichotomy (D : IntentV → DOut) (recurse : Bool) (fuel : Nat)
    (e : Effect) (s : RState) (iserr : Bool) (v : Val) :
    ((performCollected D recurse fuel e = .finished iserr v s
        ∨ performCollected D recurse fuel e = .suspended s) →
      ((∀ x xs, s.successes = x :: xs → sync_perform D recurse fuel e = .value x)
        ∧ (∀ ei tl, s.successes = [] → s.errors = Val.excInfo ei :: tl →
            sync_perform D recurse fuel e = .raisedE ei)
        ∧ (s.successes = [] → s.errors = [] →
            sync_perform D recurse fuel e = .raisedE notSynchronousExc)))
    ∧ (∀ ex s2, performCollected D recurse fuel e = .raised ex s2 →
        sync_perform D recurse fuel e = .raisedE ex)
    ∧ (∀ (kk : ExcKind) (p t f2 : Nat),
        sync_perform (fun _ => .settles true (.excInfo ⟨kk, p, t⟩)) true (f2 + 3)
            (.mk (.popo 0) []) = .raisedE ⟨kk, p, t⟩) := by
  refine ⟨?_, ?_, fun kk p t f2 => rfl⟩
  · intro h
    have hs : sync_perform D recurse fuel e = afterPerform s := by
      rcases h with h | h <;> simp [sync_perform, h]
    refine ⟨?_, ?_, ?_⟩
    · intro x xs hx
      rw [hs]
      simp [afterPerform, hx]
    · intro ei tl h1 h2
      rw [hs]
      simp [afterPerform, h1, h2, reraiseVal]
    · intro h1 h2
      rw [hs]
      simp [afterPerform, h1, h2]
  · intro ex s2 h
    simp [sync_perform, h]

/-- Witness for C4 at concrete inputs: a synchronous constant effect
returns its value, a silent performer raises NotSynchronousError, and a
failing performer has its error triple re-raised intact. -/
theorem c4_sync_perform_trichotomy_witness :
    sync_perform intendedBaseDispatch true 5 (.mk (.constant (.obj 3)) []) = .value (.obj 3)
    ∧ sync_perform (fun _ => .silent) true 5 (.mk (.popo 1) []) = .raisedE notSynchronousExc
    ∧ sync_perform (fun _ => .settles true (.excInfo ⟨.appExc 4, 2, 9⟩)) true 8
        (.mk (.popo 0) []) = .raisedE ⟨.appExc 4, 2, 9⟩ := by
  refine ⟨?_, ?_, ?_⟩
  · exact ((c4_sync_perform_trichotomy intendedBaseDispatch true 5 (.mk (.constant (.obj 3)) [])
      ⟨[.obj 3], [], []⟩ false Val.none).1 (Or.inl rfl)).1 (.obj 3) [] rfl
  · exact ((c4_sync_perform_trichotomy (fun _ => .silent) true 5 (.mk (.popo 1) [])
      ⟨[], [], []⟩ false Val.none).1 (Or.inr rfl)).2.2 rfl rfl
  · exact (c4_sync_perform_trichotomy (fun _ => .silent) true 0 (.mk (.popo 0) [])
      ⟨[], [], []⟩ false Val.none).2.2 (.appExc 4) 2 9 5

/-- C5: the claim states that an intent with no performer in the
dispatcher makes perform raise the distinct NoEffectHandlerError with no
chain handler invoked.  The code raises TypeError instead: the
three-argument dispatcher call of _perform never reaches the lookup in
the two-parameter TypeDispatcher.__call__, so the distinct no-handler
error - which the lookup body does raise when entered with matching
arity, as the last two parts show - is unreachable through perform.  No
handler runs either way: the final state is untouched. -/
theorem c5_no_performer_code_eval (n : Nat) (cs : List (Option Cb × Option Cb)) (fuel : Nat) :
    runT actualBaseDispatch true (fuel + 1) (.performing (.mk (.popo n) cs)) ⟨[], [], []⟩
        = .raised typeErrorArity ⟨[], [], []⟩
    ∧ pyCall (typeDispatcherCallable base_dispatcher) 2 (.popo n) = .raises noEffectHandlerExc
    ∧ pyCall (typeDispatcherCallable []) 2 (.popo n) = .raises noEffectHandlerExc
    ∧ runT (fun i => pyCall (typeDispatcherCallable []) 3 i) true (fuel + 1)
        (.performing (.mk (.popo n) cs)) ⟨[], [], []⟩ = .raised typeErrorArity ⟨[], [], []⟩ :=
  ⟨rfl, rfl, rfl, rfl⟩

/-- C6 counterexample: settling the same Box twice is neither rejected nor
a no-op - the bound continuation is invoked a second time and the second
delivery takes effect, both for succeed-then-succeed and for
succeed-then-fail, refuting the claim at these concrete inputs. -/
theorem c6_box_double_settle_counterexample :
    PBox.succeed logPBox 3 (PBox.succeed logPBox 1 []) = [(false, 1), (false, 3)]
    ∧ PBox.fail logPBox 2 (PBox.succeed logPBox 1 []) = [(false, 1), (true, 2)]
    ∧ PBox.succeed logPBox 3 (PBox.succeed logPBox 1 []) ≠ PBox.succeed logPBox 1 [] :=
  ⟨rfl, rfl, by decide⟩

/-- C6 amended: the Box applies no exactly-once guard - every succeed or
fail call invokes the bound continuation with its tagged result, so a
sequence of k settlements invokes the continuation k times, delivering
the settlements in order; at-most-once settlement is an obligation on
performers that the Box does not enforce. -/
theorem c6_box_no_guard (ops : List (Bool × Nat)) (s : List (Bool × Nat)) :
    settleAll logPBox ops s = s ++ ops
    ∧ (∀ (α σ : Type) (b : PBox α σ) (r : α) (st : σ),
        PBox.succeed b r st = b.cont (false, r) st ∧ PBox.fail b r st = b.cont (true, r) st) := by
  constructor
  · induction ops generalizing s with
    | nil => simp [settleAll]
    | cons op rest ih =>
        obtain ⟨tag, x⟩ := op
        cases tag
        · have hx : settleAll logPBox ((false, x) :: rest) s
              = settleAll logPBox rest (s ++ [(false, x)]) := rfl
          rw [hx, ih]
          simp
        · have hx : settleAll logPBox ((true, x) :: rest) s
              = settleAll logPBox rest (s ++ [(true, x)]) := rfl
          rw [hx, ih]
          simp
  · intro α σ b r st
    exact ⟨rfl, rfl⟩

/-- C7: the composed dispatcher tries its sub-dispatchers in order; the
first whose outcome is not a raised NoEffectHandlerError decides the
outcome of the composite, earlier not-found outcomes falling through; and
when every sub-dispatcher reports not-found the composite itself raises
NoEffectHandlerError. -/
theorem c7_composed_dispatcher_order (α β : Type) (i : α) :
    (∀ (pre : List (α → Except ExcInfo β)) (d : α → Except ExcInfo β)
        (post : List (α → Except ExcInfo β)),
        (∀ p ∈ pre, isNoHandlerOutcome (p i) = true) → isNoHandlerOutcome (d i) = false →
        ComposedDispatcher.call (pre ++ d :: post) i = d i)
    ∧ (∀ ds : List (α → Except ExcInfo β),
        (∀ p ∈ ds, isNoHandlerOutcome (p i) = true) →
        ComposedDispatcher.call ds i = .error noEffectHandlerExc) := by
  constructor
  · intro pre
    induction pre with
    | nil =>
        intro d post _ hd
        rcases hh : d i with e | r
        · rw [hh] at hd
          cases hk : e.kind <;>
            simp_all [ComposedDispatcher.call, isNoHandlerOutcome, hh, hk]
        · simp [ComposedDispatcher.call, hh]
    | cons p pre ih =>
        intro d post hpre hd
        have hp := hpre p (by simp)
        rcases hh : p i with e | r
        · rw [hh] at hp
          cases hk : e.kind <;> simp [isNoHandlerOutcome, hk] at hp
          have : ComposedDispatcher.call ((p :: pre) ++ d :: post) i
              = ComposedDispatcher.call (pre ++ d :: post) i := by
            simp [ComposedDispatcher.call, hh, hk]
          rw [this]
          exact ih d post (fun q hq => hpre q (by simp [hq])) hd
        · rw [hh] at hp
          simp [isNoHandlerOutcome] at hp
  · intro ds
    induction ds with
    | nil => intro _; rfl
    | cons p rest ih =>
        intro hall
        have hp := hall p (by simp)
        rcases hh : p i with e | r
        · rw [hh] at hp
          cases hk : e.kind <;> simp [isNoHandlerOutcome, hk] at hp
          have : ComposedDispatcher.call (p :: rest) i = ComposedDispatcher.call rest i := by
            simp [ComposedDispatcher.call, hh, hk]
          rw [this]
          exact ih (fun q hq => hall q (by simp [hq]))
        · rw [hh] at hp
          simp [isNoHandlerOutcome] at hp

/-- Witness for C7 at concrete inputs: a not-found sub-dispatcher falls
through to a successful one, and a single not-found sub-dispatcher makes
the composite report not-found. -/
theorem c7_composed_dispatcher_order_witness :
    ComposedDispatcher.call
        [fun _ => Except.error noEffectHandlerExc, fun n => Except.ok (n + 7)] (0 : Nat)
      = Except.ok 7
    ∧ ComposedDispatcher.call [fun _ => (Except.error noEffectHandlerExc : Except ExcInfo Nat)]
        (0 : Nat) = Except.error noEffectHandlerExc := by
  constructor
  · have h := (c7_composed_dispatcher_order Nat Nat 0).1
      [fun _ => Except.error noEffectHandlerExc] (fun n => Except.ok (n + 7)) []
      (fun p hp => by rw [List.mem_singleton] at hp; subst hp; rfl) rfl
    exact h.trans rfl
  · exact (c7_composed_dispatcher_order Nat Nat 0).2
      [fun _ => Except.error noEffectHandlerExc]
      (fun p hp => by rw [List.mem_singleton] at hp; subst hp; rfl)

/-- C8: guard is total - for every function and arguments, a normal return
r comes back as the pair (False, r), and a raised exception comes back as
(True, captured triple); the result is always one of these two normal
pairs, so no exception escapes the guard call. -/
theorem c8_guard_total (f : Val → RState → Except ExcInfo Val × RState) (v : Val) (s : RState) :
    (∃ r s2, f v s = (.ok r, s2) ∧ guard f v s = ((false, r), s2))
    ∨ (∃ ex s2, f v s = (.error ex, s2) ∧ guard f v s = ((true, .excInfo ex), s2)) := by
  rcases h : f v s with ⟨res, s2⟩
  cases res with
  | ok r => exact Or.inl ⟨r, s2, rfl, by simp [guard, h]⟩
  | error ex => exact Or.inr ⟨ex, s2, rfl, by simp [guard, h]⟩

/-- C9: Effect.on returns a new Effect with the same intent and with the
callback chain of the receiver extended by the new pair at the end - the
new chain is one element longer and its leading segment is exactly the
old chain, the receiver itself being left untouched by the non-mutating
list concatenation. -/
theorem c9_on_appends (e : Effect) (sc ec : Option Cb) :
    (e.on sc ec).intent = e.intent
    ∧ (e.on sc ec).callbacks = e.callbacks ++ [(sc, ec)]
    ∧ (e.on sc ec).callbacks.length = e.callbacks.length + 1
    ∧ (e.on sc ec).callbacks.take e.callbacks.length = e.callbacks := by
  refine ⟨rfl, rfl, by simp [Effect.on, Effect.callbacks], ?_⟩
  show (e.callbacks ++ [(sc, ec)]).take e.callbacks.length = e.callbacks
  simp

/-- C10: flattening fires only on runtime type exactly Effect - a value of
a strict subclass of Effect is not flattened even with recursion enabled:
with an empty chain it is delivered as the final resolution, a present
handler receives the subclass instance itself as an ordinary value, a
constant effect resolving to such an instance sync-returns it unchanged,
while the same shapes with runtime type exactly Effect are flattened and
performed instead. -/
theorem c10_subclass_not_flattened (D : IntentV → DOut) (fuel : Nat) (iserr : Bool)
    (E : Effect) (s : RState) :
    runT D true (fuel + 1) (.running [] iserr (.effSub E)) s = .finished iserr (.effSub E) s
    ∧ runT D true (fuel + 2) (.running [(some .logFn, Option.none)] false (.effSub E)) ⟨[], [], []⟩
        = .finished false (.effSub E) ⟨[], [], [.effSub E]⟩
    ∧ sync_perform intendedBaseDispatch true 5 (.mk (.constant (.effSub E)) [])
        = .value (.effSub E)
    ∧ runT D true (fuel + 1) (.running [] iserr (.eff E)) s
        = runT D true fuel (.performing (.mk E.intent (E.callbacks ++ []))) s :=
  ⟨rfl, rfl, rfl, rfl⟩

end EffectCore
